import Mathlib

/-!
Verification of the FinClear / FinNet settlement engine (`src/finnet_engine.py`).

The file embeds the two core classes of the source, `RiskEngine.detect_anomalies`
and `NettingEngine.run_netting`, as executable Lean functions over a `Trade`
record matching the ledger schema, and proves the claimed properties about them.

Modelling conventions:
* pandas float columns are embedded as `ℚ` (exact real arithmetic);
  the single place where the source can produce a float `NaN` — the savings
  division `((gross_volume - net_volume) / gross_volume) * 100` at
  `gross_volume = 0` — is embedded as an `Option ℚ` that is `none` exactly in
  the NaN (0/0) case.
* `Anomaly_Score` is a dataframe column that exists only after
  `detect_anomalies` ran, so trades carry `anomaly_score : Option ℤ`
  (`none` = column absent / unlabelled, `some s` = the score written by the
  detector; the source filters on score `1` = normal, `-1` = anomalous).
* pandas `groupby(...).sum()` plus the `outer` merge on `Entity` is embedded
  by summing `Total_Value` over the trades with the given buyer (resp. seller)
  for each entity in the union of the buyer and seller sets.  pandas returns
  the group keys sorted; we keep first-appearance order of the deduplicated
  key list, which changes only the ordering of the rows of `net_df`, never
  their content or their set of entities.
* `run_netting` in the source contains no `raise` statement and returns its
  four results unconditionally for every labelled ledger, so its embedding is
  a total function into `SettlementReport`.
* `detect_anomalies` assigns the Anomaly_Score column via
  `model.fit_predict` **in place** on the dataframe owned by the caller and
  then returns that same object.  Its embedding therefore returns both the
  function result and the post-call state of the ledger of the caller
  (state passing for the mutation).  The
  isolation-forest scoring itself (`IsolationForest(...).fit_predict`) is
  third-party scikit-learn code, abstracted as an explicit function argument
  `fit_predict features contamination random_state`; the source fixes
  `random_state = 42` and passes the module-level `risk_threshold` as the
  contamination.  scikit-learn validates `contamination ∈ (0, 0.5]` when
  `fit` runs and raises `ValueError` otherwise; that documented library
  behaviour is the only error path of the function and is embedded as
  `Except PyError`.  The repository code itself performs no validation.
-/

namespace FinNet

/-- The `Status` column written by `run_netting`:
`"PAY TO DTCC"` / `"RECEIVE FROM DTCC"` in the source. -/
inductive Status where
  | payToDTCC
  | receiveFromDTCC
deriving DecidableEq, Repr

/-- One row of the ledger dataframe (schema of `MarketSimulator.generate_trades`
plus the detector-written `Anomaly_Score` column, absent = `none`). -/
structure Trade where
  trade_id : String
  buyer : String
  seller : String
  symbol : String
  quantity : ℕ
  price : ℚ
  total_value : ℚ
  timestamp : ℕ
  anomaly_score : Option ℤ
deriving DecidableEq, Repr

/-- One row of `net_df`: `Entity, To_Pay, To_Receive, Net_Position, Status`. -/
structure NetPosition where
  entity : String
  to_pay : ℚ
  to_receive : ℚ
  net_position : ℚ
  status : Status
deriving DecidableEq, Repr

/-- The four values returned by `run_netting`:
`net_df, savings, gross_volume, net_volume`.  `savings_pct = none` embeds the
float `NaN` produced by the `0 / 0` division when `gross_volume = 0`. -/
structure SettlementReport where
  positions : List NetPosition
  savings_pct : Option ℚ
  gross_volume : ℚ
  net_volume : ℚ
deriving DecidableEq, Repr

/-- Filter step of the source: valid_trades keeps the rows whose
Anomaly_Score is 1. -/
def validTrades (df : List Trade) : List Trade :=
  df.filter (fun t => t.anomaly_score = some 1)

/-- Buyer-side aggregation: the groupby of valid_trades on Buyer summing
Total_Value, read off at entity `e` (0 when `e` is in no Buyer row, which is
what `fillna(0)` after the outer merge produces). -/
def toPay (v : List Trade) (e : String) : ℚ :=
  ((v.filter (fun t => t.buyer = e)).map Trade.total_value).sum

/-- Seller-side aggregation: the groupby of valid_trades on Seller summing
Total_Value, read off at entity `e` (0 when `e` is in no Seller row, via
`fillna(0)` after the outer merge). -/
def toReceive (v : List Trade) (e : String) : ℚ :=
  ((v.filter (fun t => t.seller = e)).map Trade.total_value).sum

/-- The `Entity` key set of the outer merge: the union of the buyer column and
the seller column of the valid trades (pandas sorts the keys; we keep
first-appearance order, which no claim depends on). -/
def entities (v : List Trade) : List String :=
  (v.map Trade.buyer ++ v.map Trade.seller).dedup

/-- One row of `net_df` for entity `e`:
`Net_Position = To_Receive - To_Pay` and
`Status = "PAY TO DTCC" if Net_Position < 0 else "RECEIVE FROM DTCC"`. -/
def mkPosition (v : List Trade) (e : String) : NetPosition :=
  let p := toPay v e
  let r := toReceive v e
  { entity := e
    to_pay := p
    to_receive := r
    net_position := r - p
    status := if r - p < 0 then Status.payToDTCC else Status.receiveFromDTCC }

/-- Gross volume: the sum of the Total_Value column of valid_trades. -/
def grossVolume (v : List Trade) : ℚ :=
  (v.map Trade.total_value).sum

/-- The netting engine `NettingEngine.run_netting`
(src/finnet_engine.py lines 80-105).  The net volume is the sum of the
absolute values of the Net_Position column divided by 2;
`savings = ((gross_volume - net_volume) / gross_volume) * 100`, which is the
float NaN (embedded `none`) when `gross_volume = 0`.  The source raises
nothing and returns a report for every labelled ledger. -/
def run_netting (df : List Trade) : SettlementReport :=
  let valid := validTrades df
  let net_df := (entities valid).map (mkPosition valid)
  let gross := grossVolume valid
  let netVol := (net_df.map (fun p => |p.net_position|)).sum / 2
  let savings := if gross = 0 then none else some ((gross - netVol) / gross * 100)
  { positions := net_df
    savings_pct := savings
    gross_volume := gross
    net_volume := netVol }

/-- State-passing view of `run_netting`: the second component is the state of
the dataframe owned by the caller after the call.  The source of
`run_netting` contains no assignment into `df` (it only builds new frames),
so the post-state is the input unchanged. -/
def run_netting_st (df : List Trade) : SettlementReport × List Trade :=
  (run_netting df, df)

/-- The error raised by third-party library code (the scikit-learn
`ValueError` for a contamination outside `(0, 0.5]`).  The repository defines
no error type of its own. -/
inductive PyError where
  | valueError
deriving DecidableEq, Repr

/-- The feature frame: the Quantity and Total_Value columns of the ledger. -/
def features (df : List Trade) : List (ℕ × ℚ) :=
  df.map (fun t => (t.quantity, t.total_value))

/-- The detector `RiskEngine.detect_anomalies`
(src/finnet_engine.py lines 70-76), with the scikit-learn estimator
abstracted as `fit_predict features contamination seed`.  The source builds
`IsolationForest(contamination=risk_threshold, random_state=42)` —
`risk_threshold` is the module-level slider value, not a parameter — and
writes the scores into the dataframe owned by the caller in place, assigning
the Anomaly_Score column from `model.fit_predict` over the Quantity and
Total_Value features, then returns that same dataframe.  The result is the
pair (returned ledger, post-call state of the input ledger): both are the
labelled list.  scikit-learn raises `ValueError` at fit time unless the
contamination lies in `(0, 0.5]`; the repository code performs no validation
of its own. -/
def detect_anomalies (fit_predict : List (ℕ × ℚ) → ℚ → ℕ → List ℤ)
    (risk_threshold : ℚ) (df : List Trade) :
    Except PyError (List Trade × List Trade) :=
  if 0 < risk_threshold ∧ risk_threshold ≤ 1 / 2 then
    let scores := fit_predict (features df) risk_threshold 42
    let labelled :=
      List.zipWith (fun t s => { t with anomaly_score := some s }) df scores
    Except.ok (labelled, labelled)
  else
    Except.error PyError.valueError

/-- A scorer marking every trade normal (score 1), used as a concrete
instantiation of the abstract `fit_predict` in witnesses. -/
def constScorer : List (ℕ × ℚ) → ℚ → ℕ → List ℤ :=
  fun fs _ _ => fs.map (fun _ => (1 : ℤ))

/-- Sample normal trade: JPMorgan buys 100 from Goldman Sachs. -/
def tNormal : Trade :=
  { trade_id := "TRX-10001"
    buyer := "JPMorgan"
    seller := "Goldman Sachs"
    symbol := "AAPL"
    quantity := 1
    price := 100
    total_value := 100
    timestamp := 0
    anomaly_score := some 1 }

/-- Sample normal trade in the opposite direction: Goldman Sachs buys 100 from
JPMorgan. -/
def tNormalBack : Trade :=
  { trade_id := "TRX-10002"
    buyer := "Goldman Sachs"
    seller := "JPMorgan"
    symbol := "AAPL"
    quantity := 1
    price := 100
    total_value := 100
    timestamp := 1
    anomaly_score := some 1 }

/-- Sample anomalous trade (score `-1`). -/
def tAnomalous : Trade :=
  { trade_id := "TRX-10003"
    buyer := "Citi"
    seller := "BlackRock"
    symbol := "TSLA"
    quantity := 500
    price := 1000
    total_value := 500000
    timestamp := 2
    anomaly_score := some (-1) }

/-- Sample normal trade with zero value (zero quantity), giving a zero gross
volume ledger. -/
def tZeroValue : Trade :=
  { trade_id := "TRX-10004"
    buyer := "Morgan Stanley"
    seller := "Citi"
    symbol := "MSFT"
    quantity := 0
    price := 250
    total_value := 0
    timestamp := 3
    anomaly_score := some 1 }

/-- Sample unlabelled trade (`Anomaly_Score` column absent). -/
def tRaw : Trade :=
  { trade_id := "TRX-10005"
    buyer := "BlackRock"
    seller := "Morgan Stanley"
    symbol := "AMZN"
    quantity := 2
    price := 150
    total_value := 300
    timestamp := 4
    anomaly_score := none }

/-- Sample self-trade: Citi buys from Citi (buyer = seller), normal. -/
def tSelf : Trade :=
  { trade_id := "TRX-10006"
    buyer := "Citi"
    seller := "Citi"
    symbol := "GOOGL"
    quantity := 3
    price := 10
    total_value := 30
    timestamp := 5
    anomaly_score := some 1 }

/-! ### Basic unfolding lemmas -/

@[simp] lemma mkPosition_entity (v : List Trade) (e : String) :
    (mkPosition v e).entity = e := rfl

@[simp] lemma mkPosition_to_pay (v : List Trade) (e : String) :
    (mkPosition v e).to_pay = toPay v e := rfl

@[simp] lemma mkPosition_to_receive (v : List Trade) (e : String) :
    (mkPosition v e).to_receive = toReceive v e := rfl

@[simp] lemma mkPosition_net_position (v : List Trade) (e : String) :
    (mkPosition v e).net_position = toReceive v e - toPay v e := rfl

@[simp] lemma mkPosition_status (v : List Trade) (e : String) :
    (mkPosition v e).status =
      if toReceive v e - toPay v e < 0 then Status.payToDTCC
      else Status.receiveFromDTCC := rfl

@[simp] lemma run_netting_positions (df : List Trade) :
    (run_netting df).positions =
      (entities (validTrades df)).map (mkPosition (validTrades df)) := rfl

@[simp] lemma run_netting_gross_volume (df : List Trade) :
    (run_netting df).gross_volume = grossVolume (validTrades df) := rfl

@[simp] lemma run_netting_net_volume (df : List Trade) :
    (run_netting df).net_volume =
      (((entities (validTrades df)).map (mkPosition (validTrades df))).map
        (fun p => |p.net_position|)).sum / 2 := rfl

@[simp] lemma run_netting_savings_pct (df : List Trade) :
    (run_netting df).savings_pct =
      if grossVolume (validTrades df) = 0 then none
      else some ((grossVolume (validTrades df) - (run_netting df).net_volume) /
        grossVolume (validTrades df) * 100) := rfl

lemma toPay_cons (t : Trade) (v : List Trade) (e : String) :
    toPay (t :: v) e = (if t.buyer = e then t.total_value else 0) + toPay v e := by
  by_cases h : t.buyer = e <;> simp [toPay, List.filter_cons, h]

lemma toReceive_cons (t : Trade) (v : List Trade) (e : String) :
    toReceive (t :: v) e =
      (if t.seller = e then t.total_value else 0) + toReceive v e := by
  by_cases h : t.seller = e <;> simp [toReceive, List.filter_cons, h]

/-! ### Sum exchange: summing the per-entity groups recovers the column sum -/

lemma sum_ite_not_mem (es : List String) (b : String) (c : ℚ) (hb : b ∉ es) :
    (es.map (fun e => if b = e then c else 0)).sum = 0 := by
  induction es with
  | nil => simp
  | cons a tl ih =>
      simp only [List.mem_cons, not_or] at hb
      simp [if_neg hb.1, ih hb.2]

lemma sum_ite_mem (es : List String) (hnd : es.Nodup) (b : String) (c : ℚ)
    (hb : b ∈ es) :
    (es.map (fun e => if b = e then c else 0)).sum = c := by
  induction es with
  | nil => simp at hb
  | cons a tl ih =>
      rcases List.nodup_cons.mp hnd with ⟨ha, htl⟩
      by_cases hba : b = a
      · subst hba
        simp [sum_ite_not_mem tl b c ha]
      · rcases List.mem_cons.mp hb with h | h
        · exact absurd h hba
        · simp [if_neg hba, ih htl h]

lemma sum_toPay (v : List Trade) (es : List String) (hnd : es.Nodup)
    (hsub : ∀ t ∈ v, t.buyer ∈ es) :
    (es.map (fun e => toPay v e)).sum = grossVolume v := by
  induction v with
  | nil => simp [toPay, grossVolume]
  | cons t vs ih =>
      have hmap : (fun e => toPay (t :: vs) e)
          = fun e => (if t.buyer = e then t.total_value else 0) + toPay vs e :=
        funext (toPay_cons t vs)
      rw [hmap, List.sum_map_add,
        sum_ite_mem es hnd t.buyer t.total_value (hsub t (List.mem_cons_self t vs)),
        ih (fun u hu => hsub u (List.mem_cons_of_mem t hu))]
      simp [grossVolume]

lemma sum_toReceive (v : List Trade) (es : List String) (hnd : es.Nodup)
    (hsub : ∀ t ∈ v, t.seller ∈ es) :
    (es.map (fun e => toReceive v e)).sum = grossVolume v := by
  induction v with
  | nil => simp [toReceive, grossVolume]
  | cons t vs ih =>
      have hmap : (fun e => toReceive (t :: vs) e)
          = fun e => (if t.seller = e then t.total_value else 0) + toReceive vs e :=
        funext (toReceive_cons t vs)
      rw [hmap, List.sum_map_add,
        sum_ite_mem es hnd t.seller t.total_value (hsub t (List.mem_cons_self t vs)),
        ih (fun u hu => hsub u (List.mem_cons_of_mem t hu))]
      simp [grossVolume]

lemma entities_nodup (v : List Trade) : (entities v).Nodup :=
  List.nodup_dedup _

lemma buyer_mem_entities (v : List Trade) (t : Trade) (ht : t ∈ v) :
    t.buyer ∈ entities v := by
  simp only [entities, List.mem_dedup, List.mem_append, List.mem_map]
  exact Or.inl ⟨t, ht, rfl⟩

lemma seller_mem_entities (v : List Trade) (t : Trade) (ht : t ∈ v) :
    t.seller ∈ entities v := by
  simp only [entities, List.mem_dedup, List.mem_append, List.mem_map]
  exact Or.inr ⟨t, ht, rfl⟩

/-- Claim C1 (netting conservation): for a labelled ledger with a non-empty
NORMAL subset, the `To_Pay` column of the report sums to `gross_volume` and so
does the `To_Receive` column. -/
theorem netting_conservation (df : List Trade) (h : validTrades df ≠ []) :
    ((run_netting df).positions.map NetPosition.to_pay).sum
        = (run_netting df).gross_volume ∧
    ((run_netting df).positions.map NetPosition.to_receive).sum
        = (run_netting df).gross_volume := by
  clear h
  constructor
  · rw [run_netting_positions, run_netting_gross_volume, List.map_map]
    have hcomp : (NetPosition.to_pay ∘ mkPosition (validTrades df))
        = fun e => toPay (validTrades df) e := rfl
    rw [hcomp]
    exact sum_toPay (validTrades df) (entities (validTrades df))
      (entities_nodup _) (fun t ht => buyer_mem_entities _ t ht)
  · rw [run_netting_positions, run_netting_gross_volume, List.map_map]
    have hcomp : (NetPosition.to_receive ∘ mkPosition (validTrades df))
        = fun e => toReceive (validTrades df) e := rfl
    rw [hcomp]
    exact sum_toReceive (validTrades df) (entities (validTrades df))
      (entities_nodup _) (fun t ht => seller_mem_entities _ t ht)

/-- Witness for C1 at the concrete two-trade ledger (a normal round trip plus
an anomalous trade). -/
theorem netting_conservation_witness :
    validTrades [tNormal, tNormalBack, tAnomalous] ≠ [] ∧
    ((run_netting [tNormal, tNormalBack, tAnomalous]).positions.map
        NetPosition.to_pay).sum
      = (run_netting [tNormal, tNormalBack, tAnomalous]).gross_volume ∧
    ((run_netting [tNormal, tNormalBack, tAnomalous]).positions.map
        NetPosition.to_receive).sum
      = (run_netting [tNormal, tNormalBack, tAnomalous]).gross_volume :=
  ⟨by decide, netting_conservation [tNormal, tNormalBack, tAnomalous] (by decide)⟩

/-- Claim C2 counterexample: on a ledger whose trades are all anomalous,
`run_netting` does not fail with `NoSettlableTrades` (no such error exists in
the source, which has no raise statement); it returns a complete
SettlementReport with an empty positions table, zero volumes and NaN savings. -/
theorem no_settlable_trades_counterexample :
    run_netting [tAnomalous] =
      { positions := []
        savings_pct := none
        gross_volume := 0
        net_volume := 0 } := by
  simp [run_netting, validTrades, entities, grossVolume, tAnomalous]

/-- Claim C2 amended: when no trade is labelled NORMAL, `run_netting` returns
(rather than failing) the report with empty positions, `gross_volume = 0`,
`net_volume = 0`, and NaN (`none`) savings from the `0 / 0` division. -/
theorem no_settlable_trades_amended (df : List Trade)
    (h : validTrades df = []) :
    run_netting df =
      { positions := []
        savings_pct := none
        gross_volume := 0
        net_volume := 0 } := by
  simp [run_netting, h, entities, grossVolume]

/-- Witness for the amended C2 at a two-trade all-anomalous ledger. -/
theorem no_settlable_trades_amended_witness :
    validTrades [tAnomalous, tAnomalous] = [] ∧
    run_netting [tAnomalous, tAnomalous] =
      { positions := []
        savings_pct := none
        gross_volume := 0
        net_volume := 0 } :=
  ⟨by decide, no_settlable_trades_amended [tAnomalous, tAnomalous] (by decide)⟩

/-- Claim C3 counterexample: on a ledger whose NORMAL subset has zero gross
volume, `run_netting` does not fail with `DegenerateVolume` (no such error
exists in the source); it performs the savings division, yielding the float
NaN (`none`), and still returns a report with a non-empty positions table. -/
theorem degenerate_volume_counterexample :
    (run_netting [tZeroValue]).savings_pct = none ∧
    (run_netting [tZeroValue]).positions ≠ [] ∧
    (run_netting [tZeroValue]).gross_volume = 0 := by
  refine ⟨?_, ?_, ?_⟩
  · simp [run_netting_savings_pct, validTrades, grossVolume, tZeroValue]
  · simp [run_netting_positions, validTrades, entities, tZeroValue]
  · simp [run_netting_gross_volume, validTrades, grossVolume, tZeroValue]

/-- Claim C3 amended: when the gross volume of the NORMAL subset is zero,
`run_netting` still returns a report; its `savings_pct` is the undefined
NaN value (`none`) produced by the silent `0 / 0` division, and no
`DegenerateVolume` error is signalled. -/
theorem degenerate_volume_amended (df : List Trade)
    (h : grossVolume (validTrades df) = 0) :
    (run_netting df).savings_pct = none ∧ (run_netting df).gross_volume = 0 := by
  rw [run_netting_savings_pct, run_netting_gross_volume]
  simp [h]

/-- Witness for the amended C3 at a ledger with a zero-value normal trade and
an anomalous trade. -/
theorem degenerate_volume_amended_witness :
    grossVolume (validTrades [tZeroValue, tAnomalous]) = 0 ∧
    (run_netting [tZeroValue, tAnomalous]).savings_pct = none ∧
    (run_netting [tZeroValue, tAnomalous]).gross_volume = 0 := by
  have h : grossVolume (validTrades [tZeroValue, tAnomalous]) = 0 := by
    simp [grossVolume, validTrades, tZeroValue, tAnomalous]
  exact ⟨h, degenerate_volume_amended [tZeroValue, tAnomalous] h⟩

/-- Claim C4 (status tie-break): every position of the report has status
`PAY TO DTCC` exactly when its net position is negative, and a zero net
position gets the receive status. -/
theorem status_tiebreak (df : List Trade) (p : NetPosition)
    (hp : p ∈ (run_netting df).positions) :
    (p.status = Status.payToDTCC ↔ p.net_position < 0) ∧
    (p.net_position = 0 → p.status = Status.receiveFromDTCC) := by
  rw [run_netting_positions] at hp
  rcases List.mem_map.mp hp with ⟨e, he, rfl⟩
  constructor
  · by_cases hlt :
      toReceive (validTrades df) e - toPay (validTrades df) e < 0 <;>
      simp [hlt]
  · intro h0
    rw [mkPosition_net_position] at h0
    simp [h0]

/-- Witness for C4 at the single-trade ledger (buyer pays, negative net). -/
theorem status_tiebreak_witness :
    (mkPosition (validTrades [tNormal]) "JPMorgan")
        ∈ (run_netting [tNormal]).positions ∧
    ((mkPosition (validTrades [tNormal]) "JPMorgan").status = Status.payToDTCC ↔
      (mkPosition (validTrades [tNormal]) "JPMorgan").net_position < 0) ∧
    ((mkPosition (validTrades [tNormal]) "JPMorgan").net_position = 0 →
      (mkPosition (validTrades [tNormal]) "JPMorgan").status
        = Status.receiveFromDTCC) := by
  have hmem : (mkPosition (validTrades [tNormal]) "JPMorgan")
      ∈ (run_netting [tNormal]).positions := by
    rw [run_netting_positions]
    exact List.mem_map_of_mem _ (by simp [entities, validTrades, tNormal])
  exact ⟨hmem, status_tiebreak [tNormal] _ hmem⟩

lemma toPay_nonneg (v : List Trade) (e : String)
    (hv : ∀ t ∈ v, 0 ≤ t.total_value) : 0 ≤ toPay v e := by
  apply List.sum_nonneg
  intro x hx
  rcases List.mem_map.mp hx with ⟨t, ht, rfl⟩
  exact hv t (List.mem_filter.mp ht).1

lemma toReceive_nonneg (v : List Trade) (e : String)
    (hv : ∀ t ∈ v, 0 ≤ t.total_value) : 0 ≤ toReceive v e := by
  apply List.sum_nonneg
  intro x hx
  rcases List.mem_map.mp hx with ⟨t, ht, rfl⟩
  exact hv t (List.mem_filter.mp ht).1

/-- Claim C5 (net-volume bound): on a schema-conforming ledger (the §3 data
model gives every trade a non-negative `Total_Value = Quantity × Price`) with a
non-empty NORMAL subset, `0 ≤ net_volume ≤ gross_volume`. -/
theorem net_volume_bound (df : List Trade)
    (hval : ∀ t ∈ df, 0 ≤ t.total_value)
    (hne : validTrades df ≠ []) :
    0 ≤ (run_netting df).net_volume ∧
    (run_netting df).net_volume ≤ (run_netting df).gross_volume := by
  clear hne
  have hv : ∀ t ∈ validTrades df, 0 ≤ t.total_value := fun t ht =>
    hval t (List.mem_filter.mp ht).1
  rw [run_netting_net_volume, run_netting_gross_volume]
  have hmap : ((entities (validTrades df)).map (mkPosition (validTrades df))).map
        (fun p => |p.net_position|)
      = (entities (validTrades df)).map
        (fun e => |toReceive (validTrades df) e - toPay (validTrades df) e|) := by
    rw [List.map_map]
    rfl
  rw [hmap]
  have hnn : (0 : ℚ) ≤ ((entities (validTrades df)).map
      (fun e => |toReceive (validTrades df) e - toPay (validTrades df) e|)).sum := by
    apply List.sum_nonneg
    intro x hx
    rcases List.mem_map.mp hx with ⟨e, he, rfl⟩
    exact abs_nonneg _
  have hle : ((entities (validTrades df)).map
        (fun e => |toReceive (validTrades df) e - toPay (validTrades df) e|)).sum
      ≤ ((entities (validTrades df)).map
        (fun e => toReceive (validTrades df) e + toPay (validTrades df) e)).sum := by
    apply List.sum_le_sum
    intro e he
    calc |toReceive (validTrades df) e - toPay (validTrades df) e|
        ≤ |toReceive (validTrades df) e| + |toPay (validTrades df) e| := abs_sub _ _
      _ = toReceive (validTrades df) e + toPay (validTrades df) e := by
          rw [abs_of_nonneg (toReceive_nonneg _ _ hv),
            abs_of_nonneg (toPay_nonneg _ _ hv)]
  have hsum : ((entities (validTrades df)).map
        (fun e => toReceive (validTrades df) e + toPay (validTrades df) e)).sum
      = grossVolume (validTrades df) + grossVolume (validTrades df) := by
    rw [List.sum_map_add,
      sum_toReceive (validTrades df) _ (entities_nodup _)
        (fun t ht => seller_mem_entities _ t ht),
      sum_toPay (validTrades df) _ (entities_nodup _)
        (fun t ht => buyer_mem_entities _ t ht)]
  rw [hsum] at hle
  constructor
  · linarith
  · linarith

/-- Witness for C5 at a concrete round-trip ledger. -/
theorem net_volume_bound_witness :
    (∀ t ∈ [tNormal, tNormalBack], 0 ≤ t.total_value) ∧
    validTrades [tNormal, tNormalBack] ≠ [] ∧
    0 ≤ (run_netting [tNormal, tNormalBack]).net_volume ∧
    (run_netting [tNormal, tNormalBack]).net_volume
      ≤ (run_netting [tNormal, tNormalBack]).gross_volume := by
  have h1 : ∀ t ∈ [tNormal, tNormalBack], (0 : ℚ) ≤ t.total_value := by
    intro t ht
    rcases List.mem_cons.mp ht with h | h
    · subst h; norm_num [tNormal]
    · rw [List.mem_singleton] at h; subst h; norm_num [tNormalBack]
  exact ⟨h1, by decide,
    net_volume_bound [tNormal, tNormalBack] h1 (by decide)⟩

/-- Claim C6 (entity set exactness): the entities of the report are exactly the
buyers and sellers of the NORMAL trades, an entity with no seller row has
`To_Receive = 0` and one with no buyer row has `To_Pay = 0` (the `fillna(0)`
of the outer merge). -/
theorem entity_set_exact (df : List Trade) :
    (∀ e : String,
      e ∈ (run_netting df).positions.map NetPosition.entity ↔
        ∃ t ∈ validTrades df, t.buyer = e ∨ t.seller = e) ∧
    (∀ p ∈ (run_netting df).positions,
      ((∀ t ∈ validTrades df, t.seller ≠ p.entity) → p.to_receive = 0) ∧
      ((∀ t ∈ validTrades df, t.buyer ≠ p.entity) → p.to_pay = 0)) := by
  constructor
  · intro e
    rw [run_netting_positions, List.map_map]
    have hid : (NetPosition.entity ∘ mkPosition (validTrades df)) = id := rfl
    rw [hid, List.map_id]
    simp only [entities, List.mem_dedup, List.mem_append, List.mem_map]
    constructor
    · rintro (⟨t, ht, rfl⟩ | ⟨t, ht, rfl⟩)
      · exact ⟨t, ht, Or.inl rfl⟩
      · exact ⟨t, ht, Or.inr rfl⟩
    · rintro ⟨t, ht, h | h⟩
      · exact Or.inl ⟨t, ht, h⟩
      · exact Or.inr ⟨t, ht, h⟩
  · intro p hp
    rw [run_netting_positions] at hp
    rcases List.mem_map.mp hp with ⟨e, he, rfl⟩
    rw [mkPosition_entity]
    constructor
    · intro hno
      rw [mkPosition_to_receive, toReceive,
        List.filter_eq_nil_iff.mpr (fun t ht => by simp [hno t ht])]
      rfl
    · intro hno
      rw [mkPosition_to_pay, toPay,
        List.filter_eq_nil_iff.mpr (fun t ht => by simp [hno t ht])]
      rfl

/-- Witness for C6: in the ledger with one normal trade (JPMorgan buys from
Goldman Sachs) and one anomalous trade (Citi / BlackRock), Goldman Sachs is an
entity of the report and Citi is not. -/
theorem entity_set_exact_witness :
    ("Goldman Sachs" ∈ (run_netting [tNormal, tAnomalous]).positions.map
        NetPosition.entity) ∧
    ¬ ("Citi" ∈ (run_netting [tNormal, tAnomalous]).positions.map
        NetPosition.entity) := by
  have h := entity_set_exact [tNormal, tAnomalous]
  constructor
  · exact (h.1 "Goldman Sachs").mpr ⟨tNormal, by decide, Or.inr rfl⟩
  · intro hc
    have hv : validTrades [tNormal, tAnomalous] = [tNormal] := by decide
    rcases (h.1 "Citi").mp hc with ⟨t, ht, hor⟩
    rw [hv, List.mem_singleton] at ht
    subst ht
    rcases hor with hb | hs
    · exact absurd hb (by decide)
    · exact absurd hs (by decide)

/-- Claim C7 (idempotence / determinism of netting): `run_netting` writes
nothing into the dataframe owned by the caller and reads no state besides its argument,
so a second run on the same (unchanged) ledger produces a bit-identical
report. -/
theorem netting_idempotent (df : List Trade) :
    (run_netting_st ((run_netting_st df).2)).1 = (run_netting_st df).1 ∧
    (run_netting_st df).2 = df :=
  ⟨rfl, rfl⟩

lemma anomaly_score_some_of_mem (df : List Trade) (scores : List ℤ) (t : Trade)
    (ht : t ∈ List.zipWith
      (fun u s => { u with anomaly_score := some s }) df scores) :
    t.anomaly_score ≠ none := by
  induction df generalizing scores with
  | nil => simp at ht
  | cons a l ih =>
      cases scores with
      | nil => simp at ht
      | cons s ss =>
          rw [List.zipWith_cons_cons] at ht
          rcases List.mem_cons.mp ht with h | h
          · subst h
            simp
          · exact ih ss h

/-- Claim C8 counterexample: `detect_anomalies` does not leave the input
ledger unchanged.  On the one-trade unlabelled ledger (with the module slider
default `risk_threshold = 0.05` and a scorer marking everything normal), the
post-call state of the dataframe owned by the caller carries the freshly written
`Anomaly_Score` column and so differs from the input. -/
theorem detect_mutates_counterexample :
    detect_anomalies constScorer (1/20) [tRaw]
      = Except.ok ([{ tRaw with anomaly_score := some 1 }],
          [{ tRaw with anomaly_score := some 1 }]) ∧
    [{ tRaw with anomaly_score := some 1 }] ≠ [tRaw] := by
  constructor
  · unfold detect_anomalies
    rw [if_pos (show (0 : ℚ) < 1 / 20 ∧ (1 / 20 : ℚ) ≤ 1 / 2 from
      ⟨by norm_num, by norm_num⟩)]
    rfl
  · simp [tRaw]

/-- Claim C8 amended: `detect_anomalies` is a function of its inputs (ledger,
the module-level `risk_threshold`, and the fixed seed 42 behind the abstract
scorer), but it does not leave the input ledger untouched: whenever it
succeeds, the dataframe it returns **is** the post-call state of the argument
passed by the caller (the `Anomaly_Score` column was assigned in place), and
every trade
of that state carries a label. -/
theorem detect_amended (fp : List (ℕ × ℚ) → ℚ → ℕ → List ℤ) (rt : ℚ)
    (df ret post : List Trade)
    (h : detect_anomalies fp rt df = Except.ok (ret, post)) :
    ret = post ∧ ∀ t ∈ post, t.anomaly_score ≠ none := by
  unfold detect_anomalies at h
  split at h
  · simp only [Except.ok.injEq, Prod.mk.injEq] at h
    constructor
    · rw [← h.1, ← h.2]
    · intro t ht
      rw [← h.2] at ht
      exact anomaly_score_some_of_mem _ _ _ ht
  · exact absurd h (by simp)

/-- Witness for the amended C8, at `risk_threshold = 0.1`. -/
theorem detect_amended_witness :
    detect_anomalies constScorer (1/10) [tRaw]
        = Except.ok ([{ tRaw with anomaly_score := some 1 }],
            [{ tRaw with anomaly_score := some 1 }]) ∧
    [{ tRaw with anomaly_score := some 1 }]
        = [{ tRaw with anomaly_score := some 1 }] ∧
    ∀ t ∈ [{ tRaw with anomaly_score := some 1 }], t.anomaly_score ≠ none := by
  have h : detect_anomalies constScorer (1/10) [tRaw]
      = Except.ok ([{ tRaw with anomaly_score := some 1 }],
          [{ tRaw with anomaly_score := some 1 }]) := by
    unfold detect_anomalies
    rw [if_pos (show (0 : ℚ) < 1 / 10 ∧ (1 / 10 : ℚ) ≤ 1 / 2 from
      ⟨by norm_num, by norm_num⟩)]
    rfl
  have ha := detect_amended constScorer (1/10) [tRaw] _ _ h
  exact ⟨h, ha.1, ha.2⟩

/-- Claim C9 counterexample: `sensitivity = 0.5` lies outside the claimed
open interval `(0, 0.5)`, yet `detect_anomalies` succeeds there and returns a
labelled ledger — no `InvalidConfiguration` error (the repository defines no
such error and validates nothing; scikit-learn accepts any contamination in
`(0, 0.5]`). -/
theorem invalid_sensitivity_counterexample :
    detect_anomalies constScorer (1/2) [tRaw]
      = Except.ok ([{ tRaw with anomaly_score := some 1 }],
          [{ tRaw with anomaly_score := some 1 }]) := by
  unfold detect_anomalies
  rw [if_pos (show (0 : ℚ) < 1 / 2 ∧ (1 / 2 : ℚ) ≤ 1 / 2 from
    ⟨by norm_num, by norm_num⟩)]
  rfl

/-- Claim C9 amended: the repository performs no sensitivity validation and
has no `InvalidConfiguration` error; a sensitivity outside the scikit-learn
documented contamination range `(0, 0.5]` makes the underlying
`IsolationForest` raise `ValueError` at fit time, while `0.5` itself is
accepted. -/
theorem invalid_sensitivity_amended (fp : List (ℕ × ℚ) → ℚ → ℕ → List ℤ)
    (rt : ℚ) (df : List Trade) (h : ¬ (0 < rt ∧ rt ≤ 1 / 2)) :
    detect_anomalies fp rt df = Except.error PyError.valueError := by
  unfold detect_anomalies
  rw [if_neg h]

/-- Witness for the amended C9 at `sensitivity = 2/3`. -/
theorem invalid_sensitivity_amended_witness :
    ¬ ((0 : ℚ) < 2 / 3 ∧ (2 / 3 : ℚ) ≤ 1 / 2) ∧
    detect_anomalies constScorer (2/3) [tRaw]
      = Except.error PyError.valueError := by
  have h : ¬ ((0 : ℚ) < 2 / 3 ∧ (2 / 3 : ℚ) ≤ 1 / 2) := by
    intro hc
    exact absurd hc.2 (by norm_num)
  exact ⟨h, invalid_sensitivity_amended constScorer (2/3) [tRaw] h⟩

/-- Claim C10 (self-trade edge case): a NORMAL trade whose buyer equals its
seller adds its `Total_Value` to both the `To_Pay` and the `To_Receive` of
that entity, so its contribution to the net position of that entity is exactly
zero. -/
theorem self_trade_nets_zero (df : List Trade) (t : Trade)
    (hb : t.buyer = t.seller) (hn : t.anomaly_score = some 1) :
    toPay (validTrades (t :: df)) t.buyer
        = t.total_value + toPay (validTrades df) t.buyer ∧
    toReceive (validTrades (t :: df)) t.buyer
        = t.total_value + toReceive (validTrades df) t.buyer ∧
    (mkPosition (validTrades (t :: df)) t.buyer).net_position
        = (mkPosition (validTrades df) t.buyer).net_position := by
  have hfilter : validTrades (t :: df) = t :: validTrades df := by
    simp [validTrades, List.filter_cons, hn]
  have hpay : toPay (validTrades (t :: df)) t.buyer
      = t.total_value + toPay (validTrades df) t.buyer := by
    rw [hfilter, toPay_cons, if_pos rfl]
  have hrec : toReceive (validTrades (t :: df)) t.buyer
      = t.total_value + toReceive (validTrades df) t.buyer := by
    rw [hfilter, toReceive_cons, if_pos hb.symm]
  refine ⟨hpay, hrec, ?_⟩
  rw [mkPosition_net_position, mkPosition_net_position, hpay, hrec]
  ring

/-- Witness for C10: Citi trading with itself on top of the one-trade
ledger. -/
theorem self_trade_nets_zero_witness :
    tSelf.buyer = tSelf.seller ∧
    tSelf.anomaly_score = some 1 ∧
    toPay (validTrades (tSelf :: [tNormal])) tSelf.buyer
        = tSelf.total_value + toPay (validTrades [tNormal]) tSelf.buyer ∧
    toReceive (validTrades (tSelf :: [tNormal])) tSelf.buyer
        = tSelf.total_value + toReceive (validTrades [tNormal]) tSelf.buyer ∧
    (mkPosition (validTrades (tSelf :: [tNormal])) tSelf.buyer).net_position
        = (mkPosition (validTrades [tNormal]) tSelf.buyer).net_position :=
  ⟨by decide, by decide,
    self_trade_nets_zero [tNormal] tSelf (by decide) (by decide)⟩

end FinNet
